import Mathlib

/-!
Verification of the summarization pipeline of PaperMemoFlow (`src/pipeline.py`).

The pipeline is shallowly embedded: document text is a whitespace-delimited
word sequence (`pySplit`), the chunker's cursor loop is a fuel-indexed
recursion (`chunkLoop`, fuel exhaustion = the Python loop is still running),
the model backend is an abstract function from attempt index / prompt to a
response or a raised exception message, and `json.loads` is modelled by an
executable recursive-descent JSON reader (`loads`).
-/

/-- Python whitespace class (the ASCII characters of `str.split`, `str.strip`
and the regex class `\s`). -/
def isPySpace (c : Char) : Bool :=
  c = ' ' || c = '\t' || c = '\n' || c = '\r' || c = '\x0b' || c = '\x0c'

/-- Model of Python `str.strip()`: remove leading and trailing whitespace. -/
def stripChars (cs : List Char) : List Char :=
  ((cs.dropWhile isPySpace).reverse.dropWhile isPySpace).reverse

/-- Model of Python `str.strip()` on strings. -/
def pyStrip (s : String) : String :=
  String.mk (stripChars s.data)

/-- One step of the whitespace splitter: build the word list right-to-left. -/
def splitStep (c : Char) (acc : List (List Char)) : List (List Char) :=
  if isPySpace c then [] :: acc
  else
    match acc with
    | [] => [[c]]
    | w :: ws => (c :: w) :: ws

/-- Model of Python `str.split()` with no argument: split on whitespace runs,
dropping empty words. -/
def pySplit (s : String) : List String :=
  ((s.data.foldr splitStep []).filter (fun w => w ≠ [])).map String.mk

/-- Model of Python `sep.join(words)`. -/
def pyJoin (sep : String) : List String → String
  | [] => ""
  | [w] => w
  | w :: ws => w ++ sep ++ pyJoin sep ws

/-- Chunk size in words (`config.CHUNK_SIZE`). -/
def CHUNK_SIZE : Nat := 3000

/-- Chunk overlap in words (`config.CHUNK_OVERLAP`). -/
def CHUNK_OVERLAP : Nat := 200

/-- Main (high-quality) model identifier (`config.MAIN_MODEL`). -/
def MAIN_MODEL : String := "claude-opus-4-5"

/-- Chunk model identifier (`config.CHUNK_MODEL`). -/
def CHUNK_MODEL : String := "claude-haiku-4-5-20251001"

/-- The cursor loop of `_chunk_text`, word-level.  `i` is the cursor; each
iteration emits `" ".join(words[i : i + maxSize])`, stops after a chunk that
reaches the end, else advances the cursor by `maxSize - overlap`.  The loop
is indexed by fuel; `none` means the loop has not finished within `fuel`
iterations (the Python loop does not terminate when the cursor cannot
advance, so a total function would be an unfaithful model). -/
def chunkLoop (maxSize overlap : Nat) (words : List String) : Nat → Nat → Option (List String)
  | 0, _ => none
  | fuel + 1, i =>
    if i < words.length then
      if i + maxSize ≥ words.length then
        some [pyJoin " " ((words.drop i).take maxSize)]
      else
        (chunkLoop maxSize overlap words fuel (i + (maxSize - overlap))).map
          (fun cs => pyJoin " " ((words.drop i).take maxSize) :: cs)
    else
      some []

/-- `_chunk_text` on an already-split word sequence.  The fuel
`words.length + 1` is sufficient whenever `overlap < maxSize` (proved in
`chunkLoop_total`), so `none` occurs exactly when the source loop runs
forever. -/
def chunk_words (maxSize overlap : Nat) (words : List String) : Option (List String) :=
  chunkLoop maxSize overlap words (words.length + 1) 0

/-- `_chunk_text(text)`: split into words, then run the cursor loop with the
configured chunk size and overlap. -/
def chunk_text (text : String) : Option (List String) :=
  chunk_words CHUNK_SIZE CHUNK_OVERLAP (pySplit text)

-- Sanity examples (word level).
example : chunk_words 3 1 ["a", "b", "c", "d", "e"] =
    some ["a b c", "c d e"] := by decide
example : chunk_text "hello  world" = some ["hello world"] := by decide
example : chunk_text "" = some [] := by decide

/-- The `_JSON_SCHEMA` template string of `pipeline.py`. -/
def JSON_SCHEMA : String :=
  "\x7b\n  \"title\": \"string\",\n  \"summary\": \"string (1-2 paragraphs, max 150 words)\",\n  \"contributions\": [\x7b\"label\": \"string\", \"text\": \"string\"\x7d],\n  \"limitations\": [\x7b\"label\": \"string\", \"text\": \"string\"\x7d],\n  \"question\": \"string\"\n\x7d"

/-- The `_JSON_RULES` template string of `pipeline.py`. -/
def JSON_RULES : String :=
  "Rules:\n- contributions: 2 to 4 items\n- limitations: 1 to 3 items\n- Total words across summary + contributions + limitations + question: max 500\n- Return ONLY valid JSON — no markdown, no code fences, no explanations"

/-- `_build_summary_prompt(text, filename)`: the single-pass prompt. -/
def build_summary_prompt (text filename : String) : String :=
  "You are an academic paper summarizer.\n\nAnalyze the following paper and return a structured JSON summary with this exact schema:\n"
    ++ JSON_SCHEMA
    ++ "\n\nThe \"title\" should be the actual paper title if detectable, otherwise use \""
    ++ filename
    ++ "\".\n"
    ++ JSON_RULES
    ++ "\n\nPaper text:\n"
    ++ text

/-- `_build_chunk_prompt(chunk, chunk_num, total)`: the per-chunk prompt. -/
def build_chunk_prompt (chunk : String) (chunkNum total : Nat) : String :=
  "Summarize portion "
    ++ toString chunkNum
    ++ "/"
    ++ toString total
    ++ " of an academic paper.\nExtract the main points, any contributions mentioned, and any limitations mentioned.\nReturn a concise paragraph of at most 100 words.\nReturn ONLY the summary text, no labels or JSON.\n\nText:\n"
    ++ chunk

/-- `_build_consolidation_prompt(summaries, filename)`. -/
def build_consolidation_prompt (summaries filename : String) : String :=
  "You are an academic paper summarizer.\nThe following are partial summaries of consecutive chunks from a long academic paper.\n\nConsolidate them into a single structured JSON summary with this exact schema:\n"
    ++ JSON_SCHEMA
    ++ "\n\nThe \"title\" should be the actual paper title if detectable, otherwise use \""
    ++ filename
    ++ "\".\n"
    ++ JSON_RULES
    ++ "\n\nPartial summaries:\n"
    ++ summaries

/-- JSON values, as produced by Python `json.loads`.  Numbers are kept as
their source lexeme (their decoding to Python int/float is not needed by any
claim); objects keep their members in source order. -/
inductive Json where
  | null
  | bool (b : Bool)
  | num (lit : String)
  | str (s : String)
  | arr (items : List Json)
  | obj (members : List (String × Json))

/-- Whether a JSON value is an object (a Python `dict`). -/
def Json.isObj : Json → Bool
  | .obj _ => true
  | _ => false

/-- JSON inter-token whitespace accepted by Python `json.loads`. -/
def isJsonWs (c : Char) : Bool :=
  c = ' ' || c = '\t' || c = '\n' || c = '\r'

/-- Skip JSON whitespace. -/
def skipWs (cs : List Char) : List Char :=
  cs.dropWhile isJsonWs

/-- Decode a single-character JSON string escape. -/
def escChar (c : Char) : Option Char :=
  if c = '"' then some '"'
  else if c = '\\' then some '\\'
  else if c = '/' then some '/'
  else if c = 'b' then some '\x08'
  else if c = 'f' then some '\x0c'
  else if c = 'n' then some '\n'
  else if c = 'r' then some '\r'
  else if c = 't' then some '\t'
  else none

/-- Hex digit value. -/
def hexVal (c : Char) : Option Nat :=
  if '0' ≤ c ∧ c ≤ '9' then some (c.toNat - '0'.toNat)
  else if 'a' ≤ c ∧ c ≤ 'f' then some (c.toNat - 'a'.toNat + 10)
  else if 'A' ≤ c ∧ c ≤ 'F' then some (c.toNat - 'A'.toNat + 10)
  else none

/-- Parse the body of a JSON string after the opening quote; returns the
decoded content and the remainder after the closing quote.  Raw control
characters are rejected (Python strict mode); surrogate-pair recombination
of `\uXXXX` escapes is not modelled. -/
def parseStringBody : List Char → Option (List Char × List Char)
  | [] => none
  | '"' :: rest => some ([], rest)
  | '\\' :: 'u' :: h1 :: h2 :: h3 :: h4 :: rest =>
    match hexVal h1, hexVal h2, hexVal h3, hexVal h4 with
    | some a, some b, some c, some d =>
      (parseStringBody rest).map
        (fun p => (Char.ofNat (((a * 16 + b) * 16 + c) * 16 + d) :: p.1, p.2))
    | _, _, _, _ => none
  | '\\' :: e :: rest =>
    (escChar e).bind (fun d => (parseStringBody rest).map (fun p => (d :: p.1, p.2)))
  | c :: rest =>
    if c.toNat < 0x20 then none
    else (parseStringBody rest).map (fun p => (c :: p.1, p.2))

/-- Try to read the literal `lit` at the head of `cs`. -/
def tryLit (lit : String) (v : Json) (cs : List Char) : Option (Json × List Char) :=
  if lit.data.isPrefixOf cs then some (v, cs.drop lit.data.length) else none

/-- Lex a JSON number at the head of `cs`, following the `NUMBER_RE` of the
Python `json` package: `-?(0|[1-9]\d*)(\.\d+)?([eE][+-]?\d+)?`, each optional
group taken only when complete. -/
def parseNumber (cs : List Char) : Option (List Char × List Char) :=
  let sign : List Char × List Char :=
    match cs with
    | '-' :: rest => (['-'], rest)
    | _ => ([], cs)
  match sign.2 with
  | [] => none
  | c :: rest =>
    if c = '0' ∨ (c.isDigit ∧ c ≠ '0') then
      let intPart : List Char × List Char :=
        if c = '0' then ([c], rest)
        else (c :: rest.takeWhile Char.isDigit, rest.dropWhile Char.isDigit)
      let frac : List Char × List Char :=
        match intPart.2 with
        | '.' :: r =>
          let ds := r.takeWhile Char.isDigit
          if ds = [] then ([], intPart.2)
          else ('.' :: ds, r.dropWhile Char.isDigit)
        | _ => ([], intPart.2)
      let expp : List Char × List Char :=
        match frac.2 with
        | e :: r =>
          if e = 'e' ∨ e = 'E' then
            let (sgn, r2) : List Char × List Char :=
              match r with
              | '+' :: r2 => (['+'], r2)
              | '-' :: r2 => (['-'], r2)
              | _ => ([], r)
            let ds := r2.takeWhile Char.isDigit
            if ds = [] then ([], frac.2)
            else (e :: (sgn ++ ds), r2.dropWhile Char.isDigit)
          else ([], frac.2)
        | _ => ([], frac.2)
      some (sign.1 ++ intPart.1 ++ frac.1 ++ expp.1, expp.2)
    else none

/-- The opening-brace character. -/
def lbraceChar : Char := Char.ofNat 123

/-- The closing-brace character. -/
def rbraceChar : Char := Char.ofNat 125

/-- The backtick character. -/
def tickChar : Char := Char.ofNat 96

/-- Parsing mode of the JSON reader: a whole value, the rest of an object
after the opening brace, a non-empty member list, the rest of an array after
the opening bracket, or a non-empty item list. -/
inductive PMode where
  | value
  | objRest
  | members
  | arrRest
  | items

/-- Intermediate result of the JSON reader, per mode. -/
inductive PRes where
  | val (v : Json)
  | mems (ms : List (String × Json))
  | elems (vs : List Json)

/-- The recursive-descent JSON reader, one function over all modes so that
recursion is structural in the fuel (and so kernel-evaluable).  Fuel only
bounds recursion depth, mirroring Python's recursion limit; `loads` supplies
enough fuel for any input whose nesting depth the Python decoder also
accepts.  Trailing commas are rejected, as in Python. -/
def parseF : Nat → PMode → List Char → Option (PRes × List Char)
  | 0, _, _ => none
  | fuel + 1, .value, cs =>
    match skipWs cs with
    | [] => none
    | c :: rest =>
      if c = lbraceChar then
        match parseF fuel .objRest rest with
        | some (.mems ms, r) => some (.val (Json.obj ms), r)
        | _ => none
      else if c = '[' then
        match parseF fuel .arrRest rest with
        | some (.elems vs, r) => some (.val (Json.arr vs), r)
        | _ => none
      else if c = '"' then
        (parseStringBody rest).map (fun p => (.val (Json.str (String.mk p.1)), p.2))
      else
        ((tryLit "true" (Json.bool true) (c :: rest) <|>
          tryLit "false" (Json.bool false) (c :: rest) <|>
          tryLit "null" Json.null (c :: rest) <|>
          tryLit "NaN" (Json.num "NaN") (c :: rest) <|>
          tryLit "Infinity" (Json.num "Infinity") (c :: rest) <|>
          tryLit "-Infinity" (Json.num "-Infinity") (c :: rest) <|>
          (parseNumber (c :: rest)).map (fun p => (Json.num (String.mk p.1), p.2))).map
          (fun p => (.val p.1, p.2)))
  | fuel + 1, .objRest, cs =>
    match skipWs cs with
    | [] => none
    | c :: rest =>
      if c = rbraceChar then some (.mems [], rest)
      else parseF fuel .members (c :: rest)
  | fuel + 1, .members, cs =>
    match skipWs cs with
    | '"' :: rest =>
      match parseStringBody rest with
      | none => none
      | some (key, r1) =>
        match skipWs r1 with
        | ':' :: r2 =>
          match parseF fuel .value r2 with
          | some (.val v, r3) =>
            match skipWs r3 with
            | ',' :: r4 =>
              match parseF fuel .members r4 with
              | some (.mems ms, r5) => some (.mems ((String.mk key, v) :: ms), r5)
              | _ => none
            | c :: r4 =>
              if c = rbraceChar then some (.mems [(String.mk key, v)], r4) else none
            | [] => none
          | _ => none
        | _ => none
    | _ => none
  | fuel + 1, .arrRest, cs =>
    match skipWs cs with
    | ']' :: rest => some (.elems [], rest)
    | _ => parseF fuel .items cs
  | fuel + 1, .items, cs =>
    match parseF fuel .value cs with
    | some (.val v, r1) =>
      match skipWs r1 with
      | ',' :: r2 =>
        match parseF fuel .items r2 with
        | some (.elems vs, r3) => some (.elems (v :: vs), r3)
        | _ => none
      | ']' :: r2 => some (.elems [v], r2)
      | _ => none
    | _ => none

/-- Parse one JSON value, returning it and the remaining input. -/
def parseValue (fuel : Nat) (cs : List Char) : Option (Json × List Char) :=
  match parseF fuel .value cs with
  | some (.val v, r) => some (v, r)
  | _ => none

/-- Model of Python `json.loads`: parse one JSON value, allowing surrounding
whitespace and rejecting any trailing content.  Note `loads` accepts any
top-level JSON value, not only objects. -/
def loads (s : String) : Option Json :=
  match parseValue (4 * s.length + 4) s.data with
  | some (v, rest) => if skipWs rest = [] then some v else none
  | none => none

-- Sanity examples for the JSON reader.
example : loads "null" = some Json.null := by rfl
example : loads " 42 " = some (Json.num "42") := by rfl
example : loads "[1, 2]" = some (Json.arr [Json.num "1", Json.num "2"]) := by rfl
example : loads "Sorry" = none := by rfl
example : loads "\x7b\"a\": \"b\"\x7d" = some (Json.obj [("a", Json.str "b")]) := by rfl
example : loads "\x7b\"a\": 1,\x7d" = none := by rfl
example : loads "012" = none := by rfl
example : loads "\x7b\"a\": [true, \x7b\x7d]\x7d x" = none := by rfl

/-- The scanner of `re.sub(r"```(?:json)?\s*", "", text)`: left-to-right,
non-overlapping, each match replaced by the empty string.  A match is three
backticks, then the tag `json` when fully present, then the maximal run of
whitespace.  The Boolean state records that the scanner is inside the `\s*`
tail of a match begun just before.  Each step consumes at least one
character and one unit of fuel, so fuel `cs.length + 1` always suffices
(the scanner, unlike the chunker loop, always terminates). -/
def fenceScan : Nat → Bool → List Char → List Char
  | 0, _, _ => []
  | _, _, [] => []
  | fuel + 1, s, c :: rest =>
    if c = tickChar then
      match rest with
      | r1 :: r2 :: 'j' :: 's' :: 'o' :: 'n' :: rest3 =>
        if r1 = tickChar ∧ r2 = tickChar then fenceScan fuel true rest3
        else c :: fenceScan fuel false rest
      | r1 :: r2 :: rest2 =>
        if r1 = tickChar ∧ r2 = tickChar then fenceScan fuel true rest2
        else c :: fenceScan fuel false rest
      | _ => c :: fenceScan fuel false rest
    else if s ∧ isPySpace c then fenceScan fuel true rest
    else c :: fenceScan fuel false rest

/-- Model of `re.sub(r"```(?:json)?\s*", "", text)` over the characters. -/
def fenceSub (cs : List Char) : List Char :=
  fenceScan (cs.length + 1) false cs

/-- The `cleaned` value of `_extract_json`: fence markers substituted away,
then the result stripped. -/
def cleaned_of (text : String) : String :=
  pyStrip (String.mk (fenceSub text.data))

/-- The characters after the first opening brace, if any. -/
def afterFirstBrace : List Char → Option (List Char)
  | [] => none
  | c :: rest => if c = lbraceChar then some rest else afterFirstBrace rest

/-- The prefix of `cs` up to and including the last closing brace, if any. -/
def cutLastClose : List Char → Option (List Char)
  | [] => none
  | c :: rest =>
    match cutLastClose rest with
    | some r => some (c :: r)
    | none => if c = rbraceChar then some [c] else none

/-- Model of `re.search(r"\{[\s\S]*\}", cleaned)`: the substring from the
first opening brace through the last closing brace, when the latter lies
strictly after the former. -/
def braceSlice (cs : List Char) : Option (List Char) :=
  (afterFirstBrace cs).bind (fun t => (cutLastClose t).map (fun r => lbraceChar :: r))

/-- Model of `_extract_json(text)`: substitute fences away and strip; try a
whole-string `json.loads`; failing that, `json.loads` on the outermost-brace
substring; failing that, raise `ValueError` carrying the first 400
characters of the original response. -/
def extract_json (text : String) : Except String Json :=
  match loads (cleaned_of text) with
  | some v => .ok v
  | none =>
    match braceSlice (cleaned_of text).data with
    | some sub =>
      match loads (String.mk sub) with
      | some v => .ok v
      | none =>
        .error ("Could not parse JSON from Claude response:\n"
          ++ String.mk (text.data.take 400))
    | none =>
      .error ("Could not parse JSON from Claude response:\n"
        ++ String.mk (text.data.take 400))

-- Sanity examples for fence cleaning and extraction.
example : String.mk (fenceSub "```json\n\x7b\"a\": 1\x7d\n```".data) =
    "\x7b\"a\": 1\x7d\n" := by rfl
example : String.mk (fenceSub "a ``` b".data) = "a b" := by rfl
example : String.mk (fenceSub "````".data) = "`" := by rfl
example : extract_json "```json\n\x7b\"a\": 1\x7d\n```" =
    .ok (Json.obj [("a", Json.num "1")]) := by rfl
example : extract_json "noise \x7b\"a\": 1\x7d noise" =
    .ok (Json.obj [("a", Json.num "1")]) := by rfl
example : extract_json "null" = .ok Json.null := by rfl
example : extract_json "Sorry, I cannot help with that." =
    .error "Could not parse JSON from Claude response:\nSorry, I cannot help with that." := by rfl

/-- Does `pat` occur as a contiguous substring of `cs` (Python `in`)? -/
def containsSub (pat : List Char) : List Char → Bool
  | [] => pat.isEmpty
  | c :: rest => pat.isPrefixOf (c :: rest) || containsSub pat rest

/-- Python `str.lower()` (ASCII case mapping suffices here). -/
def pyLower (s : String) : String :=
  String.mk (s.data.map Char.toLower)

/-- The rate-limit test of `_query_claude`:
`"rate_limit" in str(e).lower()`. -/
def isRateLimitMsg (e : String) : Bool :=
  containsSub "rate_limit".data (pyLower e).data

/-- Outcome of one `_query_claude` invocation: a returned string, or an
exception propagated to the caller (identified by its message). -/
inductive QueryOutcome where
  | ok (response : String)
  | raised (msg : String)

/-- The retry loop of `_query_claude`.  The backend abstracts one
single-turn query: for a given attempt index it either yields the
accumulated text of all response fragments (`Except.ok`) or raises an
exception with the given string representation (`Except.error`).  Returns
the outcome together with the list of back-off sleeps performed, in order.
`rem` is the number of loop iterations remaining (`retries - attempt`); a
loop that ends without returning yields the empty string, as in the
source. -/
def query_attempts (backend : Nat → Except String String) (retries : Nat) :
    Nat → Nat → QueryOutcome × List Nat
  | _, 0 => (.ok "", [])
  | attempt, rem + 1 =>
    match backend attempt with
    | .ok parts => (.ok (pyStrip parts), [])
    | .error e =>
      if isRateLimitMsg e ∧ attempt < retries - 1 then
        let r := query_attempts backend retries (attempt + 1) rem
        (r.1, 60 * (attempt + 1) :: r.2)
      else (.raised e, [])

/-- Model of `_query_claude(prompt, model, retries)`, abstracted over the
backend; the prompt and model only select the backend behaviour, so they are
folded into it. -/
def query_claude (backend : Nat → Except String String) (retries : Nat) :
    QueryOutcome × List Nat :=
  query_attempts backend retries 0 retries

-- Sanity examples for the retry loop.
example : query_claude (fun _ => .error "boom") 3 = (.raised "boom", []) := by rfl
example :
    query_claude (fun n => if n < 2 then .error "Rate_Limit hit" else .ok " done ") 3 =
      (.ok "done", [60, 120]) := by rfl
example : query_claude (fun _ => .error "rate_limit") 3 =
    (.raised "rate_limit", [60, 120]) := by rfl
example : query_claude (fun _ => .error "x") 0 = (.ok "", []) := by rfl

/-- One model call of the pipeline: the prompt sent and the model used. -/
structure ModelCall where
  prompt : String
  model : String

/-- The chunk loop of `run_pipeline`: for each chunk, in order, build the
chunk prompt (1-based ordinal over the total count) and query the chunk
model; record the call made and the stripped response.  The orchestrator
backend maps a prompt and model to the accumulated response text (the claims
about the orchestrator concern the success path, so the backend does not
raise; raising is modelled in `query_claude`). -/
def chunk_step (backend : String → String → String) (total : Nat) :
    Nat → List String → List (ModelCall × String)
  | _, [] => []
  | i, c :: rest =>
    let p := build_chunk_prompt c (i + 1) total
    (⟨p, CHUNK_MODEL⟩, pyStrip (backend p CHUNK_MODEL)) ::
      chunk_step backend total (i + 1) rest

/-- Model of `run_pipeline(text, filename)`: count words; if over the
chunk-size budget, chunk, summarise each chunk with the chunk model,
consolidate with the main model, else make a single main-model call; parse
the final response.  Returns the list of model calls made, in order, and the
parse result.  `none` only when the chunk loop diverges, which cannot happen
for the configured sizes (`chunkLoop_total`). -/
def run_pipeline (backend : String → String → String) (text filename : String) :
    Option (List ModelCall × Except String Json) :=
  let word_count := (pySplit text).length
  if word_count > CHUNK_SIZE then
    match chunk_text text with
    | none => none
    | some chunks =>
      let steps := chunk_step backend chunks.length 0 chunks
      let consolidated := pyJoin "\n\n" (steps.map (fun st => st.2))
      let finalPrompt := build_consolidation_prompt consolidated filename
      some (steps.map (fun st => st.1) ++ [⟨finalPrompt, MAIN_MODEL⟩],
        extract_json (pyStrip (backend finalPrompt MAIN_MODEL)))
  else
    let p := build_summary_prompt text filename
    some ([⟨p, MAIN_MODEL⟩], extract_json (pyStrip (backend p MAIN_MODEL)))

/-!  ## Lemmas about splitting and joining  -/

/-- A word is good for round-tripping when it is non-empty and contains no
whitespace character. -/
def goodWord (w : String) : Prop :=
  w.data ≠ [] ∧ ∀ c ∈ w.data, isPySpace c = false

/-- Folding the splitter over a whitespace-free character run prepends the
run onto the word being built. -/
theorem foldr_splitStep_run (a : List Char) (as : List (List Char)) :
    ∀ w : List Char, (∀ c ∈ w, isPySpace c = false) →
    w.foldr splitStep ((a :: as)) = (w ++ a) :: as := by
  intro w
  induction w with
  | nil => intro _; rfl
  | cons c w' ih =>
    intro hw
    have hc : isPySpace c = false := hw c (by simp)
    have hw' : ∀ c ∈ w', isPySpace c = false := fun d hd => hw d (by simp [hd])
    simp only [List.foldr_cons, ih hw', splitStep, hc]
    simp

/-- Folding the splitter over a non-empty whitespace-free character run,
starting from the empty accumulator, yields that single word. -/
theorem foldr_splitStep_word :
    ∀ w : List Char, w ≠ [] → (∀ c ∈ w, isPySpace c = false) →
    w.foldr splitStep [] = [w] := by
  intro w
  induction w with
  | nil => intro h; exact absurd rfl h
  | cons c w' ih =>
    intro _ hw
    have hc : isPySpace c = false := hw c (by simp)
    have hw' : ∀ c ∈ w', isPySpace c = false := fun d hd => hw d (by simp [hd])
    rcases eq_or_ne w' [] with rfl | hne
    · simp [splitStep, hc]
    · simp only [List.foldr_cons, ih hne hw', splitStep, hc]
      simp

/-- The raw splitter fold inverts `" ".join` on good words. -/
theorem foldr_splitStep_join :
    ∀ ws : List String, (∀ w ∈ ws, goodWord w) →
    (pyJoin " " ws).data.foldr splitStep [] = ws.map String.data := by
  intro ws
  induction ws with
  | nil => intro _; rfl
  | cons w ws' ih =>
    intro hg
    have hgw : goodWord w := hg w (by simp)
    have hg' : ∀ v ∈ ws', goodWord v := fun v hv => hg v (by simp [hv])
    rcases ws' with _ | ⟨w2, ws2⟩
    · simpa using foldr_splitStep_word w.data hgw.1 hgw.2
    · show (w ++ " " ++ pyJoin " " (w2 :: ws2)).data.foldr splitStep [] = _
      rw [String.data_append, String.data_append]
      rw [List.append_assoc, List.foldr_append]
      have hsp : (((" ".data) ++ (pyJoin " " (w2 :: ws2)).data).foldr splitStep [])
          = [] :: (w2 :: ws2).map String.data := by
        show ((' ' :: (pyJoin " " (w2 :: ws2)).data).foldr splitStep []) = _
        rw [List.foldr_cons, ih hg']
        show splitStep ' ' _ = _
        simp [splitStep, isPySpace]
      rw [hsp, foldr_splitStep_run _ _ w.data hgw.2]
      simp

/-- `pySplit` inverts `" ".join` on good words (non-empty, whitespace-free). -/
theorem pySplit_pyJoin (ws : List String) (h : ∀ w ∈ ws, goodWord w) :
    pySplit (pyJoin " " ws) = ws := by
  rw [pySplit, foldr_splitStep_join ws h]
  rw [List.filter_eq_self.mpr]
  · rw [List.map_map]
    have : ∀ w ∈ ws, (String.mk ∘ String.data) w = id w := fun w _ => rfl
    rw [List.map_congr_left this, List.map_id]
  · intro cs hcs
    rcases List.mem_map.mp hcs with ⟨w, hw, rfl⟩
    have := (h w hw).1
    simpa using this

/-!  ## Lemmas about fence cleaning  -/

/-- On a backtick-free input in ordinary state, the fence scanner changes
nothing. -/
theorem fenceScan_tickfree_false :
    ∀ fuel (cs : List Char), cs.length < fuel → (∀ c ∈ cs, c ≠ tickChar) →
    fenceScan fuel false cs = cs := by
  intro fuel
  induction fuel with
  | zero => intro cs h _; omega
  | succ fuel ih =>
    intro cs hlen hfree
    cases cs with
    | nil => rfl
    | cons c rest =>
      have hc : c ≠ tickChar := hfree c (by simp)
      have hfree' : ∀ d ∈ rest, d ≠ tickChar := fun d hd => hfree d (by simp [hd])
      show (if c = tickChar then _ else if (false : Bool) ∧ isPySpace c then _ else _) = _
      rw [if_neg hc, if_neg (by simp)]
      rw [ih rest (by simp at hlen; omega) hfree']

/-- On a backtick-free input while inside the whitespace tail of a match,
the fence scanner drops exactly the leading whitespace run. -/
theorem fenceScan_tickfree_true :
    ∀ fuel (cs : List Char), cs.length < fuel → (∀ c ∈ cs, c ≠ tickChar) →
    fenceScan fuel true cs = cs.dropWhile isPySpace := by
  intro fuel
  induction fuel with
  | zero => intro cs h _; omega
  | succ fuel ih =>
    intro cs hlen hfree
    cases cs with
    | nil => rfl
    | cons c rest =>
      have hc : c ≠ tickChar := hfree c (by simp)
      have hfree' : ∀ d ∈ rest, d ≠ tickChar := fun d hd => hfree d (by simp [hd])
      show (if c = tickChar then _ else if (true : Bool) ∧ isPySpace c then _ else _) = _
      rw [if_neg hc]
      by_cases hsp : isPySpace c
      · rw [if_pos (by simp [hsp]), ih rest (by simp at hlen; omega) hfree',
          List.dropWhile_cons_of_pos hsp]
      · rw [if_neg (by simp [hsp]), List.dropWhile_cons_of_neg hsp,
          fenceScan_tickfree_false fuel rest (by simp at hlen; omega) hfree']

/-- The fence scanner passes a backtick-free prefix through unchanged,
consuming one unit of fuel per character. -/
theorem fenceScan_append (rest : List Char) (fuel : Nat) :
    ∀ a : List Char, (∀ c ∈ a, c ≠ tickChar) →
    fenceScan (fuel + a.length) false (a ++ rest) = a ++ fenceScan fuel false rest := by
  intro a
  induction a with
  | nil => intro _; rfl
  | cons c a' ih =>
    intro hfree
    have hc : c ≠ tickChar := hfree c (by simp)
    have hfree' : ∀ d ∈ a', d ≠ tickChar := fun d hd => hfree d (by simp [hd])
    have hfuel : fuel + (c :: a').length = (fuel + a'.length) + 1 := by
      simp [List.length_cons]; omega
    rw [hfuel]
    show (if c = tickChar then _ else if (false : Bool) ∧ isPySpace c then _ else _) = _
    rw [if_neg hc, if_neg (by simp)]
    show c :: fenceScan (fuel + a'.length) false (a' ++ rest) = _
    rw [ih hfree']
    rfl

/-- Consuming a full tagged fence marker `"```json"` puts the scanner into
the whitespace-eating state on the remainder. -/
theorem fenceScan_fence_json (f : Nat) (b : List Char) :
    fenceScan (f + 1) false
      (tickChar :: tickChar :: tickChar :: 'j' :: 's' :: 'o' :: 'n' :: b) =
    fenceScan f true b := by
  show (if tickChar = tickChar then _ else _) = _
  rw [if_pos rfl]
  show (if tickChar = tickChar ∧ tickChar = tickChar then _ else _) = _
  rw [if_pos ⟨rfl, rfl⟩]

/-!  ## Lemmas about JSON extraction  -/

/-- A successful brace slice starts with the opening brace. -/
theorem braceSlice_head {cs sub : List Char} (h : braceSlice cs = some sub) :
    ∃ r, sub = lbraceChar :: r := by
  rw [braceSlice] at h
  simp only [Option.bind_eq_some, Option.map_eq_some'] at h
  obtain ⟨t, _, r, _, hr⟩ := h
  exact ⟨r, hr.symm⟩

/-- `skipWs` does not move past an opening brace. -/
theorem skipWs_lbrace (r : List Char) : skipWs (lbraceChar :: r) = lbraceChar :: r := by
  rw [skipWs, List.dropWhile_cons_of_neg]
  simp [isJsonWs, lbraceChar]

/-- One step of the JSON reader on input that begins with an opening brace:
it parses an object body. -/
theorem parseValue_lbrace (f : Nat) (r : List Char) :
    parseValue (f + 1) (lbraceChar :: r) =
      match parseF f .objRest r with
      | some (.mems ms, rest) => some (Json.obj ms, rest)
      | _ => none := by
  rw [parseValue]
  simp only [parseF]
  rw [skipWs_lbrace]
  simp only [if_pos rfl]
  cases hp : parseF f .objRest r with
  | none => rfl
  | some p =>
    rcases p with ⟨pr, prest⟩
    cases pr <;> rfl

/-- Anything `json.loads` accepts from a string that begins with an opening
brace is a JSON object. -/
theorem loads_head_lbrace_obj {s : String} {r : List Char} {v : Json}
    (hs : s.data = lbraceChar :: r) (h : loads s = some v) : v.isObj = true := by
  obtain ⟨f, hf⟩ : ∃ f, 4 * s.length + 4 = f + 1 := ⟨4 * s.length + 3, by omega⟩
  rw [loads, hf, hs, parseValue_lbrace] at h
  cases hp : parseF f .objRest r with
  | none => rw [hp] at h; exact absurd h (by simp)
  | some p =>
    rcases p with ⟨pr, prest⟩
    cases pr with
    | val w => rw [hp] at h; exact absurd h (by simp)
    | elems vs => rw [hp] at h; exact absurd h (by simp)
    | mems ms =>
      rw [hp] at h
      simp only at h
      by_cases htr : skipWs prest = []
      · rw [if_pos htr] at h
        cases h
        rfl
      · rw [if_neg htr] at h
        exact absurd h (by simp)

/-!  ## Lemmas about the chunker  -/

/-- Stepping a ceiling division: `⌈n / s⌉ = ⌈(n - s) / s⌉ + 1` for `n > 0`
(in truncated `Nat` arithmetic, with the ceiling written `(n + s - 1) / s`). -/
theorem ceil_div_step (s n : Nat) (hs : 0 < s) (hn : 0 < n) :
    (n + s - 1) / s = (n - s + s - 1) / s + 1 := by
  rcases le_or_lt s n with hcase | hcase
  · have e1 : n + s - 1 = (n - s + s - 1) + s := by omega
    rw [e1, Nat.add_div_right _ hs]
  · have e2 : n - s + s - 1 = s - 1 := by omega
    have e3 : n + s - 1 = (n - 1) + s := by omega
    rw [e2, e3, Nat.add_div_right _ hs,
      Nat.div_eq_of_lt (show n - 1 < s by omega),
      Nat.div_eq_of_lt (show s - 1 < s by omega)]

/-- Closed form of the chunker loop under the precondition
`overlap < maxSize`: starting at cursor `i < L` with fuel at least `L - i`,
the loop terminates and yields one chunk per start `i, i+s, i+2s, …`
(`s = maxSize - overlap`), each chunk being the `maxSize`-word slice at its
start, the number of chunks being `⌈(L - i - maxSize) / s⌉ + 1`. -/
theorem chunkLoop_closed (maxSize overlap : Nat) (h : overlap < maxSize)
    (words : List String) :
    ∀ fuel i, i < words.length → words.length - i ≤ fuel →
    chunkLoop maxSize overlap words fuel i =
      some ((List.range
          ((words.length - i - maxSize + (maxSize - overlap) - 1) / (maxSize - overlap) + 1)).map
        (fun j => pyJoin " " ((words.drop (i + j * (maxSize - overlap))).take maxSize))) := by
  intro fuel
  induction fuel with
  | zero => intro i hi hfuel; omega
  | succ fuel ih =>
    intro i hi hfuel
    rw [chunkLoop, if_pos hi]
    by_cases hend : i + maxSize ≥ words.length
    · rw [if_pos hend]
      have h0 : words.length - i - maxSize = 0 := by omega
      rw [h0, Nat.div_eq_of_lt (show 0 + (maxSize - overlap) - 1 < maxSize - overlap by omega)]
      simp [List.range_succ]
    · rw [if_neg hend]
      have hi' : i + (maxSize - overlap) < words.length := by omega
      rw [ih (i + (maxSize - overlap)) hi' (by omega)]
      simp only [Option.map_some']
      congr 1
      have hn : 0 < words.length - i - maxSize := by omega
      have hk : (words.length - i - maxSize + (maxSize - overlap) - 1) / (maxSize - overlap) + 1
          = ((words.length - (i + (maxSize - overlap)) - maxSize + (maxSize - overlap) - 1)
              / (maxSize - overlap) + 1) + 1 := by
        have hstep := ceil_div_step (maxSize - overlap) (words.length - i - maxSize)
          (by omega) hn
        have harith : words.length - (i + (maxSize - overlap)) - maxSize
            = words.length - i - maxSize - (maxSize - overlap) := by omega
        rw [harith]
        omega
      rw [hk]
      have hsplit : (List.range
            ((words.length - (i + (maxSize - overlap)) - maxSize + (maxSize - overlap) - 1)
              / (maxSize - overlap) + 1 + 1)).map
            (fun j => pyJoin " " ((words.drop (i + j * (maxSize - overlap))).take maxSize))
          = pyJoin " " ((words.drop (i + 0 * (maxSize - overlap))).take maxSize) ::
            (List.range
              ((words.length - (i + (maxSize - overlap)) - maxSize + (maxSize - overlap) - 1)
                / (maxSize - overlap) + 1)).map
              ((fun j => pyJoin " " ((words.drop (i + j * (maxSize - overlap))).take maxSize))
                ∘ Nat.succ) := by
        rw [List.range_succ_eq_map, List.map_cons, List.map_map]
      rw [hsplit]
      congr 1
      · simp
      · apply List.map_congr_left
        intro j hj
        simp only [Function.comp_apply]
        have harg : i + Nat.succ j * (maxSize - overlap)
            = i + (maxSize - overlap) + j * (maxSize - overlap) := by
          rw [Nat.succ_mul]; omega
        rw [harg]

/-- Closed form of `chunk_words` on a non-empty word list under the
precondition `overlap < maxSize`. -/
theorem chunk_words_closed (maxSize overlap : Nat) (h : overlap < maxSize)
    (words : List String) (hne : words ≠ []) :
    chunk_words maxSize overlap words =
      some ((List.range
          ((words.length - maxSize + (maxSize - overlap) - 1) / (maxSize - overlap) + 1)).map
        (fun j => pyJoin " " ((words.drop (j * (maxSize - overlap))).take maxSize))) := by
  have hlen : 0 < words.length := List.length_pos.mpr hne
  rw [chunk_words, chunkLoop_closed maxSize overlap h words (words.length + 1) 0 hlen (by omega)]
  simp

/-- `chunk_words` on the empty word sequence yields no chunks at all (the
Python loop body never runs). -/
theorem chunk_words_nil (maxSize overlap : Nat) :
    chunk_words maxSize overlap [] = some [] := rfl

/-- Termination of the chunker under the precondition `overlap < maxSize`:
the loop always finishes within the fuel provided by `chunk_words`. -/
theorem chunkLoop_total (maxSize overlap : Nat) (h : overlap < maxSize)
    (words : List String) : ∃ cs, chunk_words maxSize overlap words = some cs := by
  rcases eq_or_ne words [] with rfl | hne
  · exact ⟨[], chunk_words_nil maxSize overlap⟩
  · exact ⟨_, chunk_words_closed maxSize overlap h words hne⟩

/-- When `overlap = maxSize` the cursor advance `maxSize - overlap` is zero:
on any text longer than `maxSize` words the cursor stays at 0 forever and
the loop never finishes, no matter the fuel.  (The source performs no
validation of the chunk parameters; this is what `_chunk_text` does in that
configuration.) -/
theorem chunkLoop_stuck (maxSize : Nat) (words : List String)
    (hL : maxSize < words.length) :
    ∀ fuel, chunkLoop maxSize maxSize words fuel 0 = none := by
  intro fuel
  induction fuel with
  | zero => rfl
  | succ fuel ih =>
    rw [chunkLoop, if_pos (by omega), if_neg (by omega)]
    rw [Nat.sub_self, Nat.add_zero, ih]
    rfl

/-- The chunk starts `0, s, 2s, …, q·s` with `q = ⌈(L - maxSize) / s⌉` cover
every index below `L` with windows of width `maxSize`. -/
theorem ceil_cover (s L maxSize : Nat) (hs : 0 < s) (hsm : s ≤ maxSize) :
    ∀ n, n < L → ∃ j, j ≤ (L - maxSize + s - 1) / s ∧ j * s ≤ n ∧ n < j * s + maxSize := by
  intro n hn
  have hd1 : n / s * s ≤ n := Nat.div_mul_le_self n s
  have hd2 : n < n / s * s + s := by
    have hdm := Nat.div_add_mod n s
    have hml := Nat.mod_lt n hs
    have hcomm : s * (n / s) = n / s * s := Nat.mul_comm _ _
    omega
  have hq : L ≤ ((L - maxSize + s - 1) / s) * s + maxSize := by
    rcases Nat.le_total L maxSize with hLm | hLm
    · have := Nat.zero_le (((L - maxSize + s - 1) / s) * s)
      omega
    · rcases Nat.eq_or_lt_of_le hLm with he | hlt
      · have h0 : L - maxSize = 0 := by omega
        rw [h0, Nat.div_eq_of_lt (show 0 + s - 1 < s by omega)]
        omega
      · have he : L - maxSize + s - 1 = (L - maxSize - 1) + s := by omega
        rw [he, Nat.add_div_right _ hs]
        have hdm := Nat.div_add_mod (L - maxSize - 1) s
        have hml := Nat.mod_lt (L - maxSize - 1) hs
        have hcomm : s * ((L - maxSize - 1) / s) = (L - maxSize - 1) / s * s :=
          Nat.mul_comm _ _
        have hmul : ((L - maxSize - 1) / s + 1) * s = (L - maxSize - 1) / s * s + s :=
          Nat.succ_mul _ _
        omega
  by_cases hsmall : n / s ≤ (L - maxSize + s - 1) / s
  · exact ⟨n / s, hsmall, hd1, by omega⟩
  · refine ⟨(L - maxSize + s - 1) / s, Nat.le_refl _, ?_, by omega⟩
    have h1 : (L - maxSize + s - 1) / s + 1 ≤ n / s := by omega
    have h2 := Nat.mul_le_mul_right s h1
    have hmul : ((L - maxSize + s - 1) / s + 1) * s = (L - maxSize + s - 1) / s * s + s :=
      Nat.succ_mul _ _
    omega

/-!  ## Claims about the chunker  -/

/-- C3: for every valid `(max_size, overlap)` pair and every non-empty word
sequence, the chunks are exactly the `max_size`-word slices at starts
`0, s, 2s, …` (`s = max_size - overlap`), so consecutive starts differ by
`s`; every word index lies in at least one chunk range (nothing is dropped
from the end), and an index lying outside every consecutive-overlap window
lies in exactly one chunk.  In particular, a 7000-word text with
`max_size = 3000`, `overlap = 200` yields the three chunks over word ranges
`[0, 3000)`, `[2800, 5800)`, `[5600, 7000)`. -/
theorem claim_C3 :
    (∀ (maxSize overlap : Nat) (words : List String), overlap < maxSize → words ≠ [] →
      ∃ k, chunk_words maxSize overlap words =
          some ((List.range k).map (fun j =>
            pyJoin " " ((words.drop (j * (maxSize - overlap))).take maxSize)))
        ∧ 0 < k
        ∧ (∀ n, n < words.length → ∃ j, j < k ∧
            j * (maxSize - overlap) ≤ n ∧ n < j * (maxSize - overlap) + maxSize)
        ∧ (∀ n : Nat,
            (∀ j, j + 1 < k →
              ¬((j + 1) * (maxSize - overlap) ≤ n ∧ n < j * (maxSize - overlap) + maxSize)) →
            ∀ j1, j1 < k → ∀ j2, j2 < k →
              j1 * (maxSize - overlap) ≤ n → n < j1 * (maxSize - overlap) + maxSize →
              j2 * (maxSize - overlap) ≤ n → n < j2 * (maxSize - overlap) + maxSize →
              j1 = j2))
    ∧ (∀ words : List String, words.length = 7000 →
        chunk_words 3000 200 words =
          some [pyJoin " " (words.take 3000),
                pyJoin " " ((words.drop 2800).take 3000),
                pyJoin " " ((words.drop 5600).take 3000)]) := by
  constructor
  · intro maxSize overlap words h hne
    have hs : 0 < maxSize - overlap := by omega
    have hsm : maxSize - overlap ≤ maxSize := by omega
    have hlen : 0 < words.length := List.length_pos.mpr hne
    refine ⟨(words.length - maxSize + (maxSize - overlap) - 1) / (maxSize - overlap) + 1,
      chunk_words_closed maxSize overlap h words hne, Nat.succ_pos _, ?_, ?_⟩
    · -- coverage
      intro n hn
      obtain ⟨j, hj, hjl, hjr⟩ :=
        ceil_cover (maxSize - overlap) words.length maxSize hs hsm n hn
      exact ⟨j, Nat.lt_succ_of_le hj, hjl, hjr⟩
    · -- uniqueness outside the overlap windows
      intro n hzone j1 hj1 j2 hj2 hl1 hr1 hl2 hr2
      by_contra hne12
      have key : ∀ ja jb, ja < jb →
          jb < (words.length - maxSize + (maxSize - overlap) - 1) / (maxSize - overlap) + 1 →
          ja * (maxSize - overlap) ≤ n → n < ja * (maxSize - overlap) + maxSize →
          jb * (maxSize - overlap) ≤ n → n < jb * (maxSize - overlap) + maxSize → False := by
        intro ja jb hab hbk hla hra hlb hrb
        have hz := hzone ja (by omega)
        apply hz
        refine ⟨?_, hra⟩
        calc (ja + 1) * (maxSize - overlap)
            ≤ jb * (maxSize - overlap) := Nat.mul_le_mul_right _ (by omega)
          _ ≤ n := hlb
      rcases Nat.lt_or_ge j1 j2 with h12 | h12
      · exact key j1 j2 h12 hj2 hl1 hr1 hl2 hr2
      · have h21 : j2 < j1 := by omega
        exact key j2 j1 h21 hj1 hl2 hr2 hl1 hr1
  · intro words hlen
    have h := chunk_words_closed 3000 200 (by norm_num) words
      (by intro h; rw [h] at hlen; simp at hlen)
    rw [hlen] at h
    norm_num at h
    rw [h]
    congr 1

/-- Witness for C3: the general part at a 5-word text with `max_size = 3`,
`overlap = 1`, and the scenario part at a concrete 7000-word text. -/
theorem claim_C3_witness :
    (∃ k, chunk_words 3 1 ["a", "b", "c", "d", "e"] =
        some ((List.range k).map (fun j =>
          pyJoin " " (((["a", "b", "c", "d", "e"] : List String).drop (j * (3 - 1))).take 3)))
      ∧ 0 < k
      ∧ (∀ n, n < (["a", "b", "c", "d", "e"] : List String).length → ∃ j, j < k ∧
          j * (3 - 1) ≤ n ∧ n < j * (3 - 1) + 3)
      ∧ (∀ n : Nat,
          (∀ j, j + 1 < k → ¬((j + 1) * (3 - 1) ≤ n ∧ n < j * (3 - 1) + 3)) →
          ∀ j1, j1 < k → ∀ j2, j2 < k →
            j1 * (3 - 1) ≤ n → n < j1 * (3 - 1) + 3 →
            j2 * (3 - 1) ≤ n → n < j2 * (3 - 1) + 3 → j1 = j2))
    ∧ chunk_words 3000 200 (List.replicate 7000 "w") =
        some [pyJoin " " ((List.replicate 7000 "w" : List String).take 3000),
              pyJoin " " (((List.replicate 7000 "w" : List String).drop 2800).take 3000),
              pyJoin " " (((List.replicate 7000 "w" : List String).drop 5600).take 3000)] :=
  ⟨claim_C3.1 3 1 ["a", "b", "c", "d", "e"] (by norm_num) (by simp),
   claim_C3.2 (List.replicate 7000 "w") (by rw [List.length_replicate])⟩

/-- C4 (amended): the chunker performs no validation of its parameters.
With `overlap = max_size` (cursor advance zero) and a text longer than
`max_size` words, the loop never finishes, no matter how many iterations it
is given — the invocation is neither rejected with a configuration error
nor completed.  Under the precondition `overlap < max_size` the cursor
always advances and `_chunk_text` terminates on every input. -/
theorem claim_C4 :
    (∀ (maxSize : Nat) (words : List String), maxSize < words.length →
      ∀ fuel, chunkLoop maxSize maxSize words fuel 0 = none)
    ∧ (∀ (maxSize overlap : Nat), overlap < maxSize → ∀ words : List String,
      ∃ cs, chunk_words maxSize overlap words = some cs) :=
  ⟨fun maxSize words h fuel => chunkLoop_stuck maxSize words h fuel,
   fun maxSize overlap h words => chunkLoop_total maxSize overlap h words⟩

set_option maxRecDepth 2000 in
/-- Counterexample to C4 as stated: with `overlap = max_size = 2` on a
3-word text, the chunker raises no configuration error — after 100 loop
iterations it is still running (and `chunkLoop_stuck` shows no number of
iterations finishes). -/
theorem claim_C4_cex : chunkLoop 2 2 ["a", "b", "c"] 100 0 = none := by decide

/-- Witness for C4: both conjuncts at concrete inputs. -/
theorem claim_C4_witness :
    chunkLoop 2 2 ["a", "b", "c"] 5 0 = none ∧
    (∃ cs, chunk_words 3000 200 ["a"] = some cs) :=
  ⟨claim_C4.1 2 ["a", "b", "c"] (by norm_num) 5,
   claim_C4.2 3000 200 (by norm_num) ["a"]⟩

/-- C10 (amended): for a non-empty text of at most `max_size` words the
chunker returns exactly one chunk, and that chunk is the word sequence
rejoined with single spaces (which differs from the raw text when the
text's whitespace is not already normalised); the empty (or whitespace-only)
text yields zero chunks, not one. -/
theorem claim_C10 :
    (∀ (maxSize overlap : Nat) (words : List String), overlap < maxSize →
      words ≠ [] → words.length ≤ maxSize →
      chunk_words maxSize overlap words = some [pyJoin " " words])
    ∧ (∀ text : String, pySplit text ≠ [] → (pySplit text).length ≤ CHUNK_SIZE →
      chunk_text text = some [pyJoin " " (pySplit text)]) := by
  have part1 : ∀ (maxSize overlap : Nat) (words : List String), overlap < maxSize →
      words ≠ [] → words.length ≤ maxSize →
      chunk_words maxSize overlap words = some [pyJoin " " words] := by
    intro maxSize overlap words h hne hle
    rw [chunk_words_closed maxSize overlap h words hne]
    have h0 : words.length - maxSize = 0 := by omega
    rw [h0, Nat.div_eq_of_lt (show 0 + (maxSize - overlap) - 1 < maxSize - overlap by omega)]
    simp [List.range_succ, List.take_of_length_le hle]
  exact ⟨part1, fun text h1 h2 =>
    part1 CHUNK_SIZE CHUNK_OVERLAP (pySplit text) (by norm_num [CHUNK_SIZE, CHUNK_OVERLAP]) h1 h2⟩

/-- Counterexample to C10 as stated: the empty text yields zero chunks
rather than one, and on a text with non-normalised whitespace the single
chunk is the rejoined word sequence, not the original text. -/
theorem claim_C10_cex :
    chunk_text "" = some [] ∧
    chunk_text "a  b" = some ["a b"] ∧ ("a b" : String) ≠ "a  b" :=
  ⟨rfl, by decide, by decide⟩

/-- Witness for C10: both conjuncts at concrete inputs. -/
theorem claim_C10_witness :
    chunk_words 3 1 ["a", "b"] = some [pyJoin " " ["a", "b"]] ∧
    chunk_text "a b" = some [pyJoin " " (pySplit "a b")] :=
  ⟨claim_C10.1 3 1 ["a", "b"] (by norm_num) (by simp) (by simp),
   claim_C10.2 "a b" (by decide) (by decide)⟩

/-- C2: a text of `L > 3000` words is split into exactly
`⌈(L - overlap) / (max_size - overlap)⌉` chunks (`max_size = 3000`,
`overlap = 200`); a text of at most 3000 words leads the orchestrator to
make exactly one model call with no chunking. -/
theorem claim_C2 :
    (∀ words : List String, CHUNK_SIZE < words.length →
      ∃ chunks, chunk_words CHUNK_SIZE CHUNK_OVERLAP words = some chunks ∧
        chunks.length =
          (words.length - CHUNK_OVERLAP + (CHUNK_SIZE - CHUNK_OVERLAP) - 1)
            / (CHUNK_SIZE - CHUNK_OVERLAP))
    ∧ (∀ (backend : String → String → String) (text filename : String),
        (pySplit text).length ≤ CHUNK_SIZE →
        ∃ calls res, run_pipeline backend text filename = some (calls, res) ∧
          calls.length = 1) := by
  constructor
  · intro words hgt
    have hne : words ≠ [] := by
      intro h; rw [h] at hgt; norm_num [CHUNK_SIZE] at hgt
    refine ⟨_, chunk_words_closed CHUNK_SIZE CHUNK_OVERLAP (by norm_num [CHUNK_SIZE, CHUNK_OVERLAP]) words hne, ?_⟩
    rw [List.length_map, List.length_range]
    have he : words.length - CHUNK_OVERLAP + (CHUNK_SIZE - CHUNK_OVERLAP) - 1
        = (words.length - CHUNK_SIZE + (CHUNK_SIZE - CHUNK_OVERLAP) - 1)
          + (CHUNK_SIZE - CHUNK_OVERLAP) := by
      norm_num [CHUNK_SIZE, CHUNK_OVERLAP] at hgt ⊢
      omega
    rw [he, Nat.add_div_right _ (by norm_num [CHUNK_SIZE, CHUNK_OVERLAP])]
  · intro backend text filename hle
    refine ⟨[⟨build_summary_prompt text filename, MAIN_MODEL⟩],
      extract_json (pyStrip (backend (build_summary_prompt text filename) MAIN_MODEL)),
      ?_, rfl⟩
    simp only [run_pipeline]
    rw [if_neg (by omega)]

/-- Witness for C2: the count formula at a concrete 3001-word text, the
single-call branch at a concrete short text. -/
theorem claim_C2_witness :
    (∃ chunks, chunk_words CHUNK_SIZE CHUNK_OVERLAP (List.replicate 3001 "w") = some chunks ∧
      chunks.length =
        ((List.replicate 3001 "w" : List String).length - CHUNK_OVERLAP
            + (CHUNK_SIZE - CHUNK_OVERLAP) - 1) / (CHUNK_SIZE - CHUNK_OVERLAP))
    ∧ (∃ calls res,
        run_pipeline (fun _ _ => "null") "tiny text" "paper1" = some (calls, res) ∧
        calls.length = 1) :=
  ⟨claim_C2.1 (List.replicate 3001 "w") (by rw [List.length_replicate]; norm_num [CHUNK_SIZE]),
   claim_C2.2 (fun _ _ => "null") "tiny text" "paper1" (by decide)⟩

/-!  ## Claims about the Model Client  -/

/-- C5: a non-rate-limit exception on the first attempt propagates to the
caller unchanged, with no retry and no sleep, for any retry budget; a
rate-limit exception on the final attempt (retries = 3) likewise propagates
unchanged, after the two scheduled back-off sleeps. -/
theorem claim_C5 :
    (∀ (backend : Nat → Except String String) (retries : Nat) (e : String),
      1 ≤ retries → backend 0 = .error e → isRateLimitMsg e = false →
      query_claude backend retries = (.raised e, []))
    ∧ (∀ (backend : Nat → Except String String) (e0 e1 e2 : String),
      backend 0 = .error e0 → backend 1 = .error e1 → backend 2 = .error e2 →
      isRateLimitMsg e0 = true → isRateLimitMsg e1 = true → isRateLimitMsg e2 = true →
      query_claude backend 3 = (.raised e2, [60, 120])) := by
  constructor
  · intro backend retries e hr hb he
    obtain ⟨r, rfl⟩ : ∃ r, retries = r + 1 := ⟨retries - 1, by omega⟩
    rw [query_claude, query_attempts, hb]
    simp [he]
  · intro backend e0 e1 e2 hb0 hb1 hb2 he0 he1 he2
    rw [query_claude]
    rw [show (3 : Nat) = 2 + 1 from rfl, query_attempts, hb0]
    simp only [he0, true_and, Nat.add_sub_cancel, if_pos (by omega : (0 : Nat) < 2)]
    rw [show (2 : Nat) = 1 + 1 from rfl, query_attempts, hb1]
    simp only [he1, true_and, Nat.add_sub_cancel,
      if_pos (by omega : (0 : Nat) + 1 < 1 + 1)]
    rw [show (1 : Nat) = 0 + 1 from rfl, query_attempts, hb2]
    simp

/-- Witness for C5: a permanent error propagates immediately; three
rate-limit errors end with the last one propagated after sleeping 60 s and
120 s. -/
theorem claim_C5_witness :
    query_claude (fun _ => .error "boom") 3 = (.raised "boom", []) ∧
    query_claude (fun _ => .error "rate_limit hit") 3 =
      (.raised "rate_limit hit", [60, 120]) :=
  ⟨claim_C5.1 (fun _ => .error "boom") 3 "boom" (by omega) rfl (by decide),
   claim_C5.2 (fun _ => .error "rate_limit hit") "rate_limit hit" "rate_limit hit"
     "rate_limit hit" rfl rfl rfl (by decide) (by decide) (by decide)⟩

/-- C6: with retries = 3, rate-limit failures on the first two attempts and
success on the third make the client sleep 60 s then 120 s and return the
third attempt's accumulated text stripped of surrounding whitespace. -/
theorem claim_C6 (backend : Nat → Except String String) (e0 e1 s : String)
    (hb0 : backend 0 = .error e0) (hb1 : backend 1 = .error e1)
    (hb2 : backend 2 = .ok s)
    (he0 : isRateLimitMsg e0 = true) (he1 : isRateLimitMsg e1 = true) :
    query_claude backend 3 = (.ok (pyStrip s), [60, 120]) := by
  rw [query_claude]
  rw [show (3 : Nat) = 2 + 1 from rfl, query_attempts, hb0]
  simp only [he0, true_and, Nat.add_sub_cancel, if_pos (by omega : (0 : Nat) < 2)]
  rw [show (2 : Nat) = 1 + 1 from rfl, query_attempts, hb1]
  simp only [he1, true_and, Nat.add_sub_cancel,
    if_pos (by omega : (0 : Nat) + 1 < 1 + 1)]
  rw [show (1 : Nat) = 0 + 1 from rfl, query_attempts, hb2]

/-- Witness for C6 at a concrete backend. -/
theorem claim_C6_witness :
    query_claude (fun n => if n < 2 then .error "Rate_Limit reached" else .ok " done ") 3 =
      (.ok (pyStrip " done "), [60, 120]) :=
  claim_C6 (fun n => if n < 2 then .error "Rate_Limit reached" else .ok " done ")
    "Rate_Limit reached" "Rate_Limit reached" " done "
    rfl rfl rfl (by decide) (by decide)

/-!  ## Claims about the Response Parser  -/

/-- C7: when neither the fence-cleaned text nor its first-brace-through-
last-brace substring decodes as JSON, `_extract_json` raises a parse error
carrying the first 400 characters of the original raw response. -/
theorem claim_C7 (text : String)
    (h1 : loads (cleaned_of text) = none)
    (h2 : ∀ sub, braceSlice (cleaned_of text).data = some sub →
      loads (String.mk sub) = none) :
    extract_json text =
      .error ("Could not parse JSON from Claude response:\n"
        ++ String.mk (text.data.take 400)) := by
  rw [extract_json, h1]
  cases hb : braceSlice (cleaned_of text).data with
  | none => rfl
  | some sub => simp only [hb, h2 sub hb]

/-- Witness for C7: the braceless refusal text fails exactly this way. -/
theorem claim_C7_witness :
    extract_json "Sorry, I cannot help with that." =
      .error ("Could not parse JSON from Claude response:\n"
        ++ String.mk ("Sorry, I cannot help with that.".data.take 400)) :=
  claim_C7 "Sorry, I cannot help with that." (by rfl)
    (by
      intro sub h
      rw [show braceSlice (cleaned_of "Sorry, I cannot help with that.").data
          = (none : Option (List Char)) from rfl] at h
      simp at h)

/-- C8 (amended): `_extract_json` either fails or returns a JSON value; a
value recovered through the brace-substring fallback is always an object,
but the direct whole-string decode returns whatever JSON value the cleaned
text is — including non-objects such as `null`. -/
theorem claim_C8 (text : String) (v : Json) (h : extract_json text = .ok v) :
    loads (cleaned_of text) = some v ∨ v.isObj = true := by
  rw [extract_json] at h
  cases hl : loads (cleaned_of text) with
  | some w =>
    simp only [hl, Except.ok.injEq] at h
    subst h
    exact Or.inl rfl
  | none =>
    simp only [hl] at h
    cases hb : braceSlice (cleaned_of text).data with
    | none => simp only [hb] at h; exact Except.noConfusion h
    | some sub =>
      simp only [hb] at h
      cases hs : loads (String.mk sub) with
      | none => simp only [hs] at h; exact Except.noConfusion h
      | some w =>
        simp only [hs, Except.ok.injEq] at h
        subst h
        obtain ⟨r, rfl⟩ := braceSlice_head hb
        exact Or.inr (loads_head_lbrace_obj rfl hs)

/-- Counterexample to C8 as stated: the response `"null"` decodes on the
direct path and `_extract_json` returns the non-object JSON value `null`. -/
theorem claim_C8_cex :
    extract_json "null" = .ok Json.null ∧ Json.isObj Json.null = false :=
  ⟨rfl, rfl⟩

/-- Witness for C8 at a response that parses through the brace fallback. -/
theorem claim_C8_witness :
    loads (cleaned_of "noise \x7b\"a\": 1\x7d noise")
        = some (Json.obj [("a", Json.num "1")])
      ∨ (Json.obj [("a", Json.num "1")]).isObj = true :=
  claim_C8 "noise \x7b\"a\": 1\x7d noise" (Json.obj [("a", Json.num "1")]) rfl

/-- C9 (amended): the fence-substitution step removes every occurrence of a
fence marker (three backticks, optionally followed by the tag `json`, then
any following whitespace) anywhere in the text — interior occurrences
included, so it can alter string content inside the extracted JSON payload;
backtick-free text is left unchanged. -/
theorem claim_C9 (a b : List Char)
    (ha : ∀ c ∈ a, c ≠ tickChar) (hb : ∀ c ∈ b, c ≠ tickChar) :
    fenceSub (a ++ (tickChar :: tickChar :: tickChar :: 'j' :: 's' :: 'o' :: 'n' :: b))
      = a ++ b.dropWhile isPySpace := by
  rw [fenceSub]
  have hlen :
      (a ++ (tickChar :: tickChar :: tickChar :: 'j' :: 's' :: 'o' :: 'n' :: b)).length + 1
        = (b.length + 8) + a.length := by
    simp [List.length_append]
    omega
  rw [hlen, fenceScan_append _ _ a ha]
  congr 1
  rw [show b.length + 8 = (b.length + 7) + 1 from by omega]
  rw [fenceScan_fence_json, fenceScan_tickfree_true _ b (by omega) hb]

/-- Counterexample to C9 as stated: an interior fence marker (here inside a
JSON string value) is removed by the cleaning step, altering the extracted
payload. -/
theorem claim_C9_cex :
    fenceSub "a ``` b".data = "a b".data ∧
    extract_json "\x7b\"note\": \"use ``` here\"\x7d" =
      .ok (Json.obj [("note", Json.str "use here")]) :=
  ⟨rfl, rfl⟩

/-- Witness for C9 at concrete backtick-free surroundings. -/
theorem claim_C9_witness :
    fenceSub ("x: ".data
        ++ (tickChar :: tickChar :: tickChar :: 'j' :: 's' :: 'o' :: 'n' :: " y".data))
      = "x: ".data ++ " y".data.dropWhile isPySpace :=
  claim_C9 "x: ".data " y".data (by decide) (by decide)

/-!  ## Claims about the Pipeline Orchestrator  -/

/-- Closed form of the orchestrator's chunk loop: the `j`-th step builds the
chunk prompt for chunk `j` (1-based ordinal `i + j + 1`) and records the
chunk-model call with the stripped backend response. -/
theorem chunk_step_eq (backend : String → String → String) (total : Nat) :
    ∀ (cs : List String) (i : Nat),
    chunk_step backend total i cs =
      (List.range cs.length).map (fun j =>
        (ModelCall.mk (build_chunk_prompt (cs.getD j "") (i + j + 1) total) CHUNK_MODEL,
         pyStrip (backend (build_chunk_prompt (cs.getD j "") (i + j + 1) total)
           CHUNK_MODEL))) := by
  intro cs
  induction cs with
  | nil => intro i; rfl
  | cons c rest ih =>
    intro i
    rw [chunk_step, ih (i + 1)]
    rw [show (c :: rest).length = rest.length + 1 from rfl]
    have hsplit : (List.range (rest.length + 1)).map (fun j =>
          (ModelCall.mk (build_chunk_prompt ((c :: rest).getD j "") (i + j + 1) total)
             CHUNK_MODEL,
           pyStrip (backend (build_chunk_prompt ((c :: rest).getD j "") (i + j + 1) total)
             CHUNK_MODEL)))
        = (ModelCall.mk (build_chunk_prompt ((c :: rest).getD 0 "") (i + 0 + 1) total)
             CHUNK_MODEL,
           pyStrip (backend (build_chunk_prompt ((c :: rest).getD 0 "") (i + 0 + 1) total)
             CHUNK_MODEL)) ::
          (List.range rest.length).map ((fun j =>
            (ModelCall.mk (build_chunk_prompt ((c :: rest).getD j "") (i + j + 1) total)
               CHUNK_MODEL,
             pyStrip (backend (build_chunk_prompt ((c :: rest).getD j "") (i + j + 1) total)
               CHUNK_MODEL))) ∘ Nat.succ) := by
      rw [List.range_succ_eq_map, List.map_cons, List.map_map]
    rw [hsplit]
    congr 1
    apply List.map_congr_left
    intro j hj
    simp only [Function.comp_apply, List.getD_cons_succ]
    have : i + Nat.succ j + 1 = i + 1 + j + 1 := by omega
    rw [this]

/-- C1: with at most 3000 words, `run_pipeline` makes exactly one call — the
main model with the single-pass prompt, which embeds the full text and the
filename — and returns the parsed response; with more than 3000 words it
makes exactly one chunk-model call per chunk, in chunk order, followed by
one main-model call whose consolidation prompt embeds the partial summaries
joined by double newlines in chunk order, and returns the parsed final
response. -/
theorem claim_C1 (backend : String → String → String) (text filename : String) :
    ((pySplit text).length ≤ CHUNK_SIZE →
      run_pipeline backend text filename =
        some ([ModelCall.mk (build_summary_prompt text filename) MAIN_MODEL],
          extract_json (pyStrip (backend (build_summary_prompt text filename) MAIN_MODEL)))
      ∧ (∃ u v : List Char, (build_summary_prompt text filename).data
          = u ++ text.data ++ v)
      ∧ (∃ u v : List Char, (build_summary_prompt text filename).data
          = u ++ filename.data ++ v))
    ∧ (CHUNK_SIZE < (pySplit text).length →
      ∃ chunks, chunk_text text = some chunks ∧
        run_pipeline backend text filename =
          some (((List.range chunks.length).map (fun j =>
              ModelCall.mk (build_chunk_prompt (chunks.getD j "") (j + 1) chunks.length)
                CHUNK_MODEL))
            ++ [ModelCall.mk
                  (build_consolidation_prompt
                    (pyJoin "\n\n" ((List.range chunks.length).map (fun j =>
                      pyStrip (backend
                        (build_chunk_prompt (chunks.getD j "") (j + 1) chunks.length)
                        CHUNK_MODEL))))
                    filename)
                  MAIN_MODEL],
            extract_json (pyStrip (backend
              (build_consolidation_prompt
                (pyJoin "\n\n" ((List.range chunks.length).map (fun j =>
                  pyStrip (backend
                    (build_chunk_prompt (chunks.getD j "") (j + 1) chunks.length)
                    CHUNK_MODEL))))
                filename)
              MAIN_MODEL)))) := by
  constructor
  · intro hle
    refine ⟨?_, ?_, ?_⟩
    · simp only [run_pipeline]
      rw [if_neg (by omega)]
    · refine ⟨("You are an academic paper summarizer.\n\nAnalyze the following paper and return a structured JSON summary with this exact schema:\n"
          ++ JSON_SCHEMA
          ++ "\n\nThe \"title\" should be the actual paper title if detectable, otherwise use \""
          ++ filename
          ++ "\".\n"
          ++ JSON_RULES
          ++ "\n\nPaper text:\n").data, [], ?_⟩
      rw [build_summary_prompt]
      simp only [String.data_append, List.append_assoc, List.append_nil]
    · refine ⟨("You are an academic paper summarizer.\n\nAnalyze the following paper and return a structured JSON summary with this exact schema:\n"
          ++ JSON_SCHEMA
          ++ "\n\nThe \"title\" should be the actual paper title if detectable, otherwise use \"").data,
        ("\".\n" ++ JSON_RULES ++ "\n\nPaper text:\n" ++ text).data, ?_⟩
      rw [build_summary_prompt]
      simp only [String.data_append, List.append_assoc, List.append_nil]
  · intro hgt
    obtain ⟨chunks, hch⟩ :=
      chunkLoop_total CHUNK_SIZE CHUNK_OVERLAP (by norm_num [CHUNK_SIZE, CHUNK_OVERLAP])
        (pySplit text)
    refine ⟨chunks, hch, ?_⟩
    simp only [run_pipeline]
    rw [if_pos (by omega)]
    rw [show chunk_text text = chunk_words CHUNK_SIZE CHUNK_OVERLAP (pySplit text) from rfl,
      hch]
    simp only [chunk_step_eq, List.map_map, Function.comp_def, Nat.zero_add]

/-- Witness for C1: the single-pass branch at a short text, the chunked
branch at a 3001-word text, both with a constant backend. -/
theorem claim_C1_witness :
    (run_pipeline (fun _ _ => "null") "short paper text" "paper1" =
        some ([ModelCall.mk (build_summary_prompt "short paper text" "paper1") MAIN_MODEL],
          extract_json (pyStrip "null"))
      ∧ (∃ u v : List Char, (build_summary_prompt "short paper text" "paper1").data
          = u ++ "short paper text".data ++ v)
      ∧ (∃ u v : List Char, (build_summary_prompt "short paper text" "paper1").data
          = u ++ "paper1".data ++ v))
    ∧ (∃ chunks, chunk_text (pyJoin " " (List.replicate 3001 "w")) = some chunks ∧
        run_pipeline (fun _ _ => "null") (pyJoin " " (List.replicate 3001 "w")) "paper2" =
          some (((List.range chunks.length).map (fun j =>
              ModelCall.mk (build_chunk_prompt (chunks.getD j "") (j + 1) chunks.length)
                CHUNK_MODEL))
            ++ [ModelCall.mk
                  (build_consolidation_prompt
                    (pyJoin "\n\n" ((List.range chunks.length).map (fun _ =>
                      pyStrip "null")))
                    "paper2")
                  MAIN_MODEL],
            extract_json (pyStrip "null"))) := by
  constructor
  · exact (claim_C1 (fun _ _ => "null") "short paper text" "paper1").1 (by decide)
  · refine (claim_C1 (fun _ _ => "null") (pyJoin " " (List.replicate 3001 "w")) "paper2").2 ?_
    rw [pySplit_pyJoin _ (fun w hw => (List.eq_of_mem_replicate hw) ▸
      (⟨by decide, by decide⟩ : goodWord "w")), List.length_replicate]
    norm_num [CHUNK_SIZE]
